import Mathlib

/-!
# Verification of the pj-assistant agent pipeline

Shallow embedding of the Python agent service (`src/agent/app/...`) in Lean 4.

Modelling conventions:
* Python `float` values (amounts, scores, confidence) are embedded as exact
  rationals (`ℚ`); all numeric claims of the specification are about exact
  values that the float computation also attains on the literals involved.
* Python `str` is `String`; file names and byte contents are `List Char`.
* Calls into external services (the LLM backend, the vector store HTTP API)
  are embedded by passing the call's outcome explicitly as an argument
  (`Except`-style), so a "raised exception" is a constructor, not an effect.
* Python dicts that are used in insertion order (`dict[str, float]`) become
  association lists that update in place and append fresh keys at the end,
  which is exactly CPython's insertion-order semantics.
-/

namespace PJAssistant

/-! ## Data model (`src/agent/app/models.py`) -/

/-- `CustomerProfile` (models.py). -/
structure CustomerProfile where
  customer_id : String
  name : String
  document : String
  segment : String
  monthly_revenue : ℚ
  account_age_months : ℤ
  credit_score : ℤ
  deriving DecidableEq, Repr

/-- `Transaction` (models.py): a signed amount plus labels. -/
structure Transaction where
  id : String
  date : String
  amount : ℚ
  type : String
  category : String
  description : String
  deriving DecidableEq, Repr

/-- `TokenUsage` (models.py). -/
structure TokenUsage where
  prompt_tokens : ℕ
  completion_tokens : ℕ
  total_tokens : ℕ
  deriving DecidableEq, Repr

/-- `AgentState` (models.py): the single aggregate threaded through the
pipeline. `tool_results` keeps only what the claims need: the mapping is a
`String`-keyed association list of textual tool outputs. -/
structure AgentState where
  customer_id : String
  profile : Option CustomerProfile
  transactions : List Transaction
  query : String
  plan : List String
  retrieved_context : String
  rag_sources : List String
  tool_results : List (String × String)
  tools_executed : List String
  answer : String
  reasoning : String
  confidence : ℚ
  token_usage : TokenUsage
  errors : List String
  deriving DecidableEq, Repr

/-- An agent state with every field empty; used to build concrete states. -/
def emptyAgentState : AgentState :=
  { customer_id := ""
    profile := none
    transactions := []
    query := ""
    plan := []
    retrieved_context := ""
    rag_sources := []
    tool_results := []
    tools_executed := []
    answer := ""
    reasoning := ""
    confidence := 0
    token_usage := ⟨0, 0, 0⟩
    errors := [] }

/-! ## Sample concrete data for witnesses -/

/-- A concrete customer profile. -/
def sampleProfile : CustomerProfile :=
  { customer_id := "cust-123"
    name := "Test"
    document := "12345"
    segment := "middle"
    monthly_revenue := 50000
    account_age_months := 24
    credit_score := 700 }

/-- A concrete transaction. -/
def sampleTransaction : Transaction :=
  { id := "1"
    date := "2025-01-01"
    amount := 5000
    type := "credit"
    category := "rev"
    description := "" }

/-- A concrete state in which all four confidence conditions hold. -/
def fullState : AgentState :=
  { emptyAgentState with
    customer_id := "cust-123"
    profile := some sampleProfile
    transactions := [sampleTransaction]
    retrieved_context := "contexto recuperado" }

/-! ## Planner (`src/agent/app/nodes/planner.py`, `plan_steps`) -/

/-- `plan_steps` (planner.py:15-37): always plans `"retrieve_knowledge"`, and
plans `"analyze_financials"` exactly when the transaction list is truthy
(non-empty).  The function is total, hence deterministic and non-failing. -/
def plan_steps (state : AgentState) : List String :=
  let plan : List String := []
  let plan := plan ++ ["retrieve_knowledge"]
  let plan := if state.transactions ≠ [] then plan ++ ["analyze_financials"] else plan
  plan

/-! ## Synthesizer (`src/agent/app/nodes/synthesizer.py`) -/

/-- `_estimate_confidence` (synthesizer.py:131-144): additive score starting
at 0.5, clamped from above at 1.0.  Python truthiness: `state.profile` is
truthy iff present, `state.transactions` iff non-empty, `state.retrieved_context`
iff a non-empty string, `not state.errors` iff the error list is empty. -/
def estimate_confidence (state : AgentState) : ℚ :=
  let score : ℚ := 1/2
  let score := if state.profile.isSome then score + 15/100 else score
  let score := if state.transactions ≠ [] then score + 15/100 else score
  let score := if state.retrieved_context ≠ "" then score + 1/10 else score
  let score := if state.errors = [] then score + 1/10 else score
  min score 1

/-- The reply of a successful LLM invocation (content plus the token-usage
counters extracted from its response metadata, zero when absent). -/
structure LLMReply where
  content : String
  prompt_tokens : ℕ
  completion_tokens : ℕ
  total_tokens : ℕ
  deriving DecidableEq, Repr

/-- The fields of the dict returned by `synthesize_response`; keys absent from
a branch's dict leave the corresponding state field unchanged, which is
embedded by copying that field from the input state. -/
structure SynthDelta where
  answer : String
  reasoning : String
  confidence : ℚ
  token_usage : TokenUsage
  errors : List String
  tools_executed : List String
  deriving DecidableEq, Repr

/-- The fixed apologetic answer of the synthesizer's failure branch
(synthesizer.py:106-107). -/
def synth_failure_answer : String :=
  "Desculpe, não foi possível gerar uma recomendação no momento. " ++
  "Por favor, tente novamente mais tarde."

/-- `synthesize_response` (synthesizer.py:47-112).  The LLM call's outcome is
passed in: `Except.ok` is a successful `llm.invoke`, `Except.error e` is the
`except Exception` branch.  The success branch returns the estimated
confidence and leaves `errors` untouched; the failure branch returns
confidence 0.0, the fixed apologetic answer, and appends one error entry. -/
def synthesize_response (state : AgentState) (llm : Except String LLMReply) :
    SynthDelta :=
  match llm with
  | .ok r =>
      { answer := r.content
        reasoning := "Análise baseada em perfil do cliente, " ++
          toString state.transactions.length ++ " transações, e " ++
          toString state.rag_sources.length ++ " documentos da base de conhecimento."
        confidence := estimate_confidence state
        token_usage := ⟨r.prompt_tokens, r.completion_tokens, r.total_tokens⟩
        errors := state.errors
        tools_executed := state.tools_executed ++ ["llm_synthesis"] }
  | .error e =>
      { answer := synth_failure_answer
        reasoning := "Erro na síntese: " ++ e
        confidence := 0
        token_usage := state.token_usage
        errors := state.errors ++ ["LLM synthesis failed: " ++ e]
        tools_executed := state.tools_executed ++ ["llm_synthesis_failed"] }

/-! ## Analyzer (`src/agent/app/nodes/analyzer.py`, `_compute_analysis`) -/

/-- `t.category or "uncategorized"` (analyzer.py:48): an empty category label
falls into the literal "uncategorized" bucket. -/
def catName (t : Transaction) : String :=
  if t.category = "" then "uncategorized" else t.category

/-- `total_income` (analyzer.py:41): sum of the positive amounts. -/
def total_income (tx : List Transaction) : ℚ :=
  ((tx.filter fun t => 0 < t.amount).map fun t => t.amount).sum

/-- `total_expenses` (analyzer.py:42): absolute value of the sum of the
negative amounts. -/
def total_expenses (tx : List Transaction) : ℚ :=
  |((tx.filter fun t => t.amount < 0).map fun t => t.amount).sum|

/-- `net_cashflow` (analyzer.py:43). -/
def net_cashflow (tx : List Transaction) : ℚ :=
  total_income tx - total_expenses tx

/-- One step of the category-volume accumulation
(`categories[cat] = categories.get(cat, 0) + abs(t.amount)`, analyzer.py:46-49):
a CPython dict updates an existing key in place and appends a fresh key at the
end, so the association list keeps key-insertion (first-seen) order. -/
def addCat : List (String × ℚ) → String → ℚ → List (String × ℚ)
  | [], c, a => [(c, a)]
  | p :: m, c, a => if p.1 = c then (p.1, p.2 + a) :: m else p :: addCat m c a

/-- The category-volume mapping of `_compute_analysis`, in first-seen order. -/
def categories (tx : List Transaction) : List (String × ℚ) :=
  tx.foldl (fun m t => addCat m (catName t) |t.amount|) []

/-- The generic consult-a-human-advisor message (server.py:121-124). -/
def fallback_answer : String :=
  "Não foi possível gerar uma recomendação completa. " ++
  "Por favor, consulte seu gerente de relacionamento."

/-- The fallback section of `invoke_agent` (server.py:118-124), as a function
of the final confidence and the (PII-redacted) answer.  Returns the
caller-visible answer and whether the fallback counter was incremented.
Note that the replacement of the answer is guarded by `if not answer:`
inside the outer conditional. -/
def apply_fallback (confidence : ℚ) (answer : String) : String × Bool :=
  if confidence < 3/10 ∨ answer = "" then
    (if answer = "" then fallback_answer else answer, true)
  else
    (answer, false)

/-- A concrete successful LLM reply. -/
def sampleReply : LLMReply :=
  { content := "Recomendação gerada.", prompt_tokens := 10,
    completion_tokens := 20, total_tokens := 30 }

/-! ## RAG retrieval (`src/agent/app/rag/retriever.py`,
`src/agent/app/rag/supabase_store.py`, `src/agent/app/nodes/retriever.py`)

The query string built by the node (nodes/retriever.py:24-38) only feeds the
backend call, whose outcome is passed in explicitly below, so it plays no
role in the claims about failure handling and threshold filtering. -/

/-- A retrieved document chunk: its content and the `source` metadata entry
(`none` when the stored metadata lacks the key or failed to parse). -/
structure Document where
  page_content : String
  source : Option String
  deriving DecidableEq, Repr

/-- A row returned by the `match_documents` RPC after JSON decoding: content,
the parsed `source` metadata entry, and the `similarity` field (`none` when
missing; the code defaults it to 0.0). -/
structure SupabaseRow where
  content : String
  metadata_source : Option String
  similarity : Option ℚ
  deriving DecidableEq, Repr

/-- Outcome of the similarity-search RPC HTTP call. -/
inductive RpcOutcome where
  | ok (rows : List SupabaseRow)
  | httpError (status : ℕ)
  | raised (msg : String)
  deriving DecidableEq, Repr

/-- `SupabaseVectorStore.similarity_search_with_relevance_scores`
(supabase_store.py:109-159): builds (document, score) pairs from the returned
rows, and returns the empty list — it does not raise — on a non-200 status or
a raised exception. -/
def similarity_search_with_relevance_scores (outcome : RpcOutcome) :
    List (Document × ℚ) :=
  match outcome with
  | .ok rows => rows.map fun r => (⟨r.content, r.metadata_source⟩, r.similarity.getD 0)
  | .httpError _ => []
  | .raised _ => []

/-- The store search call's outcome as observed inside `search_knowledge_base`:
either the backend returned a candidate list or the call raised. -/
inductive SearchOutcome where
  | results (rs : List (Document × ℚ))
  | raised (msg : String)
  deriving DecidableEq, Repr

/-- `search_knowledge_base` (rag/retriever.py:134-162): keeps the documents
whose score satisfies `score >= score_threshold` (default 0.3); any exception
raised inside the search is caught and the empty list is returned. -/
def search_knowledge_base (outcome : SearchOutcome) (score_threshold : ℚ) :
    List Document :=
  match outcome with
  | .results rs => (rs.filter fun p => score_threshold ≤ p.2).map Prod.fst
  | .raised _ => []

/-- CPython's `str.join`. -/
def strJoin (sep : String) : List String → String
  | [] => ""
  | x :: xs => xs.foldl (fun acc s => acc ++ sep ++ s) x

/-- The fields of the dict returned by `retrieve_knowledge`; a branch that
omits a key leaves the state field unchanged, embedded by copying it. -/
structure RetrieverDelta where
  retrieved_context : String
  rag_sources : List String
  errors : List String
  tools_executed : List String
  deriving DecidableEq, Repr

/-- `retrieve_knowledge` (nodes/retriever.py:16-65).  `store_init` is the
outcome of `get_vector_store()`: that call sits outside the `try` block of
`search_knowledge_base`, so its exception is the one that reaches the node's
`except` branch.  `outcome` is the store search call's outcome, whose
failures `search_knowledge_base` swallows, leaving the node on its success
branch. -/
def retrieve_knowledge (state : AgentState) (store_init : Except String Unit)
    (outcome : SearchOutcome) : RetrieverDelta :=
  match store_init with
  | .error e =>
      { retrieved_context := ""
        rag_sources := []
        errors := state.errors ++ ["RAG retrieval failed: " ++ e]
        tools_executed := state.tools_executed ++ ["rag_retrieval_failed"] }
  | .ok _ =>
      let results := search_knowledge_base outcome (3/10)
      { retrieved_context := strJoin "\n\n---\n\n" (results.map fun d => d.page_content)
        rag_sources := results.map fun d => d.source.getD "unknown"
        errors := state.errors
        tools_executed := state.tools_executed ++ ["rag_retrieval"] }

/-! ## Rate limiter (`src/agent/app/security.py`, `RateLimiter`) -/

/-- `RateLimiter` (security.py:91-97): per-customer sliding-window limiter.
`time.time()` float timestamps are embedded as rationals; the
`defaultdict(list)` history is a total map defaulting to the empty list. -/
structure RateLimiter where
  max_requests : ℕ
  window_seconds : ℚ
  requests : String → List ℚ

/-- `RateLimiter.is_allowed` (security.py:99-114): drop the key's timestamps
at or before `now - window_seconds` (the cleaned list is stored in both
branches), refuse when at least `max_requests` remain, otherwise append `now`
and allow. -/
def is_allowed (rl : RateLimiter) (customer_id : String) (now : ℚ) :
    Bool × RateLimiter :=
  let window_start := now - rl.window_seconds
  let cleaned := (rl.requests customer_id).filter fun ts => decide (window_start < ts)
  if rl.max_requests ≤ cleaned.length then
    (false, { rl with
      requests := fun k => if k = customer_id then cleaned else rl.requests k })
  else
    (true, { rl with
      requests := fun k => if k = customer_id then cleaned ++ [now]
        else rl.requests k })

/-- A sequence of `is_allowed` calls for one key at the given times,
collecting the results in order. -/
def runCalls (rl : RateLimiter) (customer_id : String) :
    List ℚ → List Bool × RateLimiter
  | [] => ([], rl)
  | t :: ts =>
      let step := is_allowed rl customer_id t
      let rest := runCalls step.2 customer_id ts
      (step.1 :: rest.1, rest.2)

/-! ## Remote store seeding (`src/agent/app/rag/supabase_store.py`) -/

/-- Raw bytes (file names, file contents, chunk contents). -/
abbrev Bytes := List Char

/-- A knowledge-base source file as produced by the name-sorted
`glob("**/*.md")` (supabase_store.py:268, 291). -/
structure KBFile where
  name : Bytes
  content : Bytes
  deriving DecidableEq, Repr

/-- The value of the persisted `kb_content_hash`.  `_compute_kb_hash`
(supabase_store.py:261-272) returns the constant string "empty" when the
knowledge-base directory is missing, and otherwise a truncated SHA-256 digest
of the concatenation of every sorted file's name bytes and content bytes.
The digest is embedded by its input stream: two corpora receive equal
`digest` values exactly when the hashed byte streams coincide (collisions of
the digest function itself are assumed absent; the literal "empty" has five
characters and can never collide with a 16-hex-character digest, which the
separate constructor reflects). -/
inductive KBHash where
  | empty
  | digest (stream : Bytes)
  deriving DecidableEq, Repr

/-- `_compute_kb_hash` (supabase_store.py:261-272); `none` is a missing
knowledge-base directory, and the file list stands for the name-sorted glob
listing.  Note the hashed stream concatenates names and contents with no
separator, exactly as the successive `hasher.update` calls do. -/
def compute_kb_hash : Option (List KBFile) → KBHash
  | none => .empty
  | some files => .digest ((files.map fun f => f.name ++ f.content).flatten)

/-- The remote store's observable table state: the persisted
`_meta_kb_content_hash` row and the ids of the non-meta document rows.
`add_documents` upserts rows keyed by a content hash of the chunk
(supabase_store.py:76), embedded injectively by the chunk content itself. -/
structure RemoteStore where
  meta_hash : Option KBHash
  chunk_ids : List Bytes
  deriving DecidableEq, Repr

/-- `get_document_count` (supabase_store.py:161-173): counts every row of the
`documents` table, the meta row included; `fail` marks an HTTP or parse
failure of the count call, which the code maps to 0. -/
def get_document_count (fail : Bool) (s : RemoteStore) : ℕ :=
  if fail then 0
  else s.chunk_ids.length + (if s.meta_hash.isSome then 1 else 0)

/-- `delete_all_documents` (supabase_store.py:175-193): the
`id=neq.<sentinel>` filter matches every row, the meta row included. -/
def delete_all_documents (_s : RemoteStore) : RemoteStore :=
  { meta_hash := none, chunk_ids := [] }

/-- Upsert chunk ids in order, skipping ids already present
(`Prefer: resolution=merge-duplicates`). -/
def upsert_ids : List Bytes → List Bytes → List Bytes
  | ids, [] => ids
  | ids, c :: cs =>
      if c ∈ ids then upsert_ids ids cs else upsert_ids (ids ++ [c]) cs

/-- `_seed_knowledge_base` (supabase_store.py:275-305): split every file's
content with the text splitter (an external langchain collaborator, passed in
as `split`) and upsert one row per chunk; a missing directory seeds
nothing. -/
def seed_knowledge_base (split : Bytes → List Bytes)
    (kb : Option (List KBFile)) (s : RemoteStore) : RemoteStore :=
  match kb with
  | none => s
  | some files =>
      { s with
        chunk_ids :=
          upsert_ids s.chunk_ids ((files.map fun f => split f.content).flatten) }

/-- `set_metadata_value("kb_content_hash", ...)` (supabase_store.py:210-225):
upserts the meta row. -/
def set_meta_hash (h : KBHash) (s : RemoteStore) : RemoteStore :=
  { s with meta_hash := some h }

/-- The observable actions issued by one `build_supabase_store` run. -/
inductive StoreAction where
  | deleteAll
  | seed
  | setHash (h : KBHash)
  deriving DecidableEq, Repr

/-- `build_supabase_store` (supabase_store.py:228-258): compare the freshly
computed corpus hash with the persisted one; on mismatch delete all rows,
re-ingest, and store the new hash; on match, re-ingest (without deleting)
exactly when the reported row count is zero.  Returns the action trace
alongside the resulting store state. -/
def build_supabase_store (split : Bytes → List Bytes) (count_fail : Bool)
    (kb : Option (List KBFile)) (s : RemoteStore) :
    List StoreAction × RemoteStore :=
  let kb_hash := compute_kb_hash kb
  if s.meta_hash ≠ some kb_hash then
    let s1 := delete_all_documents s
    let s2 := seed_knowledge_base split kb s1
    let s3 := set_meta_hash kb_hash s2
    ([.deleteAll, .seed, .setHash kb_hash], s3)
  else if get_document_count count_fail s = 0 then
    let s2 := seed_knowledge_base split kb s
    ([.seed, .setHash kb_hash], set_meta_hash kb_hash s2)
  else
    ([], s)

/-- A one-chunk-per-file stand-in for the text splitter, used in concrete
instances. -/
def sampleSplit : Bytes → List Bytes := fun c => [c]

/-- First corpus of the hash-collision pair: `a.md` holds "Xb.md", `b.md`
holds "Y". -/
def corpusA : List KBFile :=
  [⟨"a.md".data, "Xb.md".data⟩, ⟨"b.md".data, "Y".data⟩]

/-- Second corpus: the same two file names, but `a.md` holds "X" and `b.md`
holds "b.mdY" — different bytes, identical concatenated hash stream
"a.mdXb.mdb.mdY". -/
def corpusB : List KBFile :=
  [⟨"a.md".data, "X".data⟩, ⟨"b.md".data, "b.mdY".data⟩]

/-! ### Analyzer lemmas -/

lemma addCat_snd_sum (m : List (String × ℚ)) (c : String) (a : ℚ) :
    ((addCat m c a).map Prod.snd).sum = (m.map Prod.snd).sum + a := by
  induction m with
  | nil => simp [addCat]
  | cons p m ih =>
      by_cases h : p.1 = c
      · simp [addCat, h]
        ring
      · simp [addCat, h, ih]
        ring

lemma categories_foldl_sum (tx : List Transaction) :
    ∀ m : List (String × ℚ),
      (((tx.foldl (fun m t => addCat m (catName t) |t.amount|) m)).map Prod.snd).sum
        = (m.map Prod.snd).sum + (tx.map fun t => |t.amount|).sum := by
  induction tx with
  | nil => intro m; simp
  | cons t ts ih =>
      intro m
      simp only [List.foldl_cons, List.map_cons, List.sum_cons]
      rw [ih, addCat_snd_sum]
      ring

lemma pos_sub_neg_sum (tx : List Transaction) :
    ((tx.filter fun t => 0 < t.amount).map fun t => t.amount).sum
      - ((tx.filter fun t => t.amount < 0).map fun t => t.amount).sum
      = (tx.map fun t => |t.amount|).sum := by
  induction tx with
  | nil => simp
  | cons t ts ih =>
      rcases lt_trichotomy t.amount 0 with h | h | h
      · simp [List.filter_cons, h, not_lt.mpr h.le, abs_of_neg h]
        linarith
      · simp [List.filter_cons, h, abs_of_nonneg]
        linarith
      · simp [List.filter_cons, h, not_lt.mpr h.le, abs_of_pos h]
        linarith

lemma neg_filter_sum_nonpos (tx : List Transaction) :
    ((tx.filter fun t => t.amount < 0).map fun t => t.amount).sum ≤ 0 := by
  induction tx with
  | nil => simp
  | cons t ts ih =>
      by_cases h : t.amount < 0
      · simp [List.filter_cons, h]
        linarith
      · simp [List.filter_cons, h]
        exact ih

lemma total_expenses_eq_neg_sum (tx : List Transaction) :
    total_expenses tx
      = -((tx.filter fun t => t.amount < 0).map fun t => t.amount).sum := by
  unfold total_expenses
  exact abs_of_nonpos (neg_filter_sum_nonpos tx)

/-- C7: the Analyzer's net cash flow equals total income minus total expenses
exactly, and the per-category totals (with unlabeled transactions in the
"uncategorized" bucket) sum exactly to the total absolute transaction volume,
which equals total income plus total expenses. -/
theorem analyzer_sums (tx : List Transaction) :
    net_cashflow tx = total_income tx - total_expenses tx ∧
    ((categories tx).map Prod.snd).sum = (tx.map fun t => |t.amount|).sum ∧
    (tx.map fun t => |t.amount|).sum = total_income tx + total_expenses tx := by
  refine ⟨rfl, ?_, ?_⟩
  · have h := categories_foldl_sum tx []
    simpa [categories] using h
  · rw [total_expenses_eq_neg_sum]
    unfold total_income
    rw [← pos_sub_neg_sum tx]
    ring

/-! ### Top-categories lemmas -/

lemma estimate_confidence_ge_half (state : AgentState) :
    1/2 ≤ estimate_confidence state := by
  unfold estimate_confidence
  dsimp only
  split_ifs <;> simp [le_min_iff] <;> norm_num

lemma estimate_confidence_le_one (state : AgentState) :
    estimate_confidence state ≤ 1 := by
  unfold estimate_confidence
  exact min_le_right _ _

lemma estimate_confidence_nonneg (state : AgentState) :
    0 ≤ estimate_confidence state :=
  le_trans (by norm_num) (estimate_confidence_ge_half state)

/-! ## Claim theorems: confidence, planner, synthesizer, server fallback -/

/-- C2: the synthesizer's confidence score equals 0.5 plus 0.15 for a present
profile, plus 0.15 for non-empty transactions, plus 0.10 for non-empty
retrieved context, plus 0.10 for an empty error list, clamped to at most 1.0;
it always lies in [0, 1], is exactly 1.0 when all four conditions hold, and
exactly 0.5 when none hold. -/
theorem confidence_additive_clamped (state : AgentState) :
    estimate_confidence state =
      min (1/2 + (if state.profile.isSome then (15/100 : ℚ) else 0)
              + (if state.transactions ≠ [] then 15/100 else 0)
              + (if state.retrieved_context ≠ "" then 1/10 else 0)
              + (if state.errors = [] then 1/10 else 0)) 1 ∧
    0 ≤ estimate_confidence state ∧
    estimate_confidence state ≤ 1 ∧
    (state.profile.isSome = true → state.transactions ≠ [] →
      state.retrieved_context ≠ "" → state.errors = [] →
      estimate_confidence state = 1) ∧
    (state.profile = none → state.transactions = [] →
      state.retrieved_context = "" → state.errors ≠ [] →
      estimate_confidence state = 1/2) := by
  refine ⟨?_, estimate_confidence_nonneg state, estimate_confidence_le_one state, ?_, ?_⟩
  · simp only [estimate_confidence]
    split_ifs <;> norm_num
  · intro h1 h2 h3 h4
    simp only [estimate_confidence, h1, h2, h3, h4, if_true, ne_eq,
      not_true_eq_false, not_false_eq_true]
    norm_num
  · intro h1 h2 h3 h4
    simp only [estimate_confidence, h1, h2, h3, h4, Option.isSome_none, ne_eq,
      not_true_eq_false, if_false]
    norm_num

/-- C2 witness: on a state with profile, transactions, retrieved context and
no errors, the confidence is exactly 1. -/
theorem confidence_additive_clamped_witness :
    fullState.profile.isSome = true ∧ fullState.transactions ≠ [] ∧
    fullState.retrieved_context ≠ "" ∧ fullState.errors = [] ∧
    estimate_confidence fullState = 1 :=
  ⟨rfl, by decide, by decide, rfl,
    (confidence_additive_clamped fullState).2.2.2.1 rfl (by decide) (by decide) rfl⟩

/-- C3: for every request state the plan contains `"retrieve_knowledge"`, and
it contains `"analyze_financials"` iff the transaction list is non-empty.
`plan_steps` is a total Lean function, hence deterministic and non-failing. -/
theorem plan_steps_spec (state : AgentState) :
    "retrieve_knowledge" ∈ plan_steps state ∧
    ("analyze_financials" ∈ plan_steps state ↔ state.transactions ≠ []) := by
  unfold plan_steps
  by_cases h : state.transactions = [] <;> simp [h]

/-- C3 witness: a state with one transaction plans the analysis step. -/
theorem plan_steps_spec_witness :
    fullState.transactions ≠ [] ∧ "analyze_financials" ∈ plan_steps fullState :=
  ⟨by decide, (plan_steps_spec fullState).2.mpr (by decide)⟩

/-- C10: when the generative call succeeds the returned confidence equals the
additive estimate and is at least 0.5; a confidence below 0.3 can only come
from the failure branch, which returns confidence exactly 0.0 and the fixed
apologetic answer. -/
theorem low_confidence_only_on_failure (state : AgentState)
    (llm : Except String LLMReply) :
    (∀ r : LLMReply, llm = .ok r →
      (synthesize_response state llm).confidence = estimate_confidence state ∧
      1/2 ≤ (synthesize_response state llm).confidence) ∧
    ((synthesize_response state llm).confidence < 3/10 →
      (∃ e, llm = .error e) ∧
      (synthesize_response state llm).confidence = 0 ∧
      (synthesize_response state llm).answer = synth_failure_answer) := by
  cases llm with
  | ok r =>
      constructor
      · intro r' _
        exact ⟨rfl, estimate_confidence_ge_half state⟩
      · intro hlt
        exfalso
        have h := estimate_confidence_ge_half state
        have : (synthesize_response state (.ok r)).confidence =
            estimate_confidence state := rfl
        rw [this] at hlt
        linarith
  | error e =>
      refine ⟨?_, ?_⟩
      · intro r h
        cases h
      · intro _
        exact ⟨⟨e, rfl⟩, rfl, rfl⟩

/-- C10 witness: on a successful generation over the empty state the
confidence equals the estimate and is at least 0.5. -/
theorem low_confidence_only_on_failure_witness :
    (synthesize_response emptyAgentState (Except.ok sampleReply)).confidence =
      estimate_confidence emptyAgentState ∧
    1/2 ≤ (synthesize_response emptyAgentState (Except.ok sampleReply)).confidence :=
  (low_confidence_only_on_failure emptyAgentState (Except.ok sampleReply)).1
    sampleReply rfl

/-- C1 counterexample: at confidence 1/5 (< 0.3) with the non-empty answer
`"ok"`, the fallback counter is incremented but the caller-visible answer is
`"ok"`, not the generic consult-a-human-advisor message — the replacement
claimed for the low-confidence/non-empty case does not happen. -/
theorem fallback_no_replacement_counterexample :
    (1/5 : ℚ) < 3/10 ∧ ("ok" : String) ≠ "" ∧
    (apply_fallback (1/5) "ok").1 = "ok" ∧
    ("ok" : String) ≠ fallback_answer ∧
    (apply_fallback (1/5) "ok").2 = true := by
  refine ⟨by norm_num, by decide, ?_, by decide, ?_⟩ <;>
    simp [apply_fallback, fallback_answer] <;> norm_num

/-- C1 (amended): the fallback counter is incremented exactly when the final
confidence is below 0.3 or the answer is empty; the caller-visible answer is
replaced by the generic message only when it is empty, and a non-empty answer
is returned unchanged even when the counter fires. -/
theorem fallback_policy (c : ℚ) (a : String) :
    ((apply_fallback c a).2 = true ↔ (c < 3/10 ∨ a = "")) ∧
    (a = "" → (apply_fallback c a).1 = fallback_answer) ∧
    (a ≠ "" → (apply_fallback c a).1 = a) := by
  unfold apply_fallback
  by_cases hc : c < 3/10 <;> by_cases ha : a = "" <;> simp [hc, ha]

/-- C1 witness: a non-empty answer passes through `apply_fallback` unchanged. -/
theorem fallback_policy_witness :
    ("ok" : String) ≠ "" ∧ (apply_fallback (1/5) "ok").1 = "ok" :=
  ⟨by decide, (fallback_policy (1/5) "ok").2.2 (by decide)⟩

/-! ## Retriever and search claims -/

lemma search_mem_threshold (rs : List (Document × ℚ)) (thr : ℚ) :
    ∀ d ∈ search_knowledge_base (.results rs) thr,
      ∃ s : ℚ, (d, s) ∈ rs ∧ thr ≤ s := by
  intro d hd
  simp only [search_knowledge_base, List.mem_map] at hd
  obtain ⟨p, hp, rfl⟩ := hd
  have h := List.mem_filter.mp hp
  exact ⟨p.2, h.1, by simpa using h.2⟩

/-- C5: every document returned by the knowledge-base search comes from a
candidate whose relevance score is at least the threshold; when no candidate
clears the threshold the search returns the empty list, and a raised search
is likewise answered with the empty list rather than an error.  The last
conjunct states the same score bound for candidates produced by the Supabase
store's similarity search. -/
theorem search_threshold_spec (rs : List (Document × ℚ)) (thr : ℚ) (m : String) :
    (∀ d ∈ search_knowledge_base (.results rs) thr,
      ∃ s : ℚ, (d, s) ∈ rs ∧ thr ≤ s) ∧
    ((∀ p ∈ rs, p.2 < thr) → search_knowledge_base (.results rs) thr = []) ∧
    search_knowledge_base (.raised m) thr = [] ∧
    (∀ rpc : RpcOutcome,
      ∀ d ∈ search_knowledge_base
        (.results (similarity_search_with_relevance_scores rpc)) thr,
      ∃ s : ℚ, (d, s) ∈ similarity_search_with_relevance_scores rpc ∧ thr ≤ s) := by
  refine ⟨search_mem_threshold rs thr, ?_, rfl, ?_⟩
  · intro h
    have hfil : (rs.filter fun p => thr ≤ p.2) = [] := by
      rw [List.filter_eq_nil_iff]
      intro p hp
      simpa using not_le.mpr (h p hp)
    simp [search_knowledge_base, hfil]
  · intro rpc
    exact search_mem_threshold _ thr

/-- C5 witness: a single candidate scoring 1/5 does not clear the default
threshold 3/10, so the search returns the empty list. -/
theorem search_threshold_spec_witness :
    (∀ p ∈ [((⟨"doc", some "kb.md"⟩ : Document), (1/5 : ℚ))], p.2 < 3/10) ∧
    search_knowledge_base
      (.results [((⟨"doc", some "kb.md"⟩ : Document), (1/5 : ℚ))]) (3/10) = [] := by
  have hall : ∀ p ∈ [((⟨"doc", some "kb.md"⟩ : Document), (1/5 : ℚ))],
      p.2 < 3/10 := by
    intro p hp
    rw [List.mem_singleton] at hp
    subst hp
    norm_num
  exact ⟨hall, (search_threshold_spec
    [((⟨"doc", some "kb.md"⟩ : Document), (1/5 : ℚ))] (3/10) "x").2.1 hall⟩

/-- C4 counterexample: with an empty error list, a store search that raises
("store unreachable") leaves the Retriever on its success branch — context
and sources are empty, but the errors list stays empty instead of receiving
exactly one entry. -/
theorem retriever_no_error_appended_counterexample :
    (retrieve_knowledge emptyAgentState (Except.ok ())
      (SearchOutcome.raised "connection refused")).retrieved_context = "" ∧
    (retrieve_knowledge emptyAgentState (Except.ok ())
      (SearchOutcome.raised "connection refused")).rag_sources = [] ∧
    emptyAgentState.errors = [] ∧
    (retrieve_knowledge emptyAgentState (Except.ok ())
      (SearchOutcome.raised "connection refused")).errors.length = 0 :=
  ⟨rfl, rfl, rfl, rfl⟩

/-- C4 (amended): a failing backend search never raises out of the pipeline
and yields empty `retrieved_context` and `sources`, but appends no error
entry — the failure is swallowed inside `search_knowledge_base`; exactly one
error entry is appended only on the node's exception branch, which is reached
when obtaining the vector store itself raises. -/
theorem retriever_failure_policy (state : AgentState) (msg e : String)
    (outcome : SearchOutcome) :
    ((retrieve_knowledge state (.ok ()) (.raised msg)).retrieved_context = "" ∧
     (retrieve_knowledge state (.ok ()) (.raised msg)).rag_sources = [] ∧
     (retrieve_knowledge state (.ok ()) (.raised msg)).errors = state.errors) ∧
    ((retrieve_knowledge state (.error e) outcome).retrieved_context = "" ∧
     (retrieve_knowledge state (.error e) outcome).rag_sources = [] ∧
     (retrieve_knowledge state (.error e) outcome).errors
        = state.errors ++ ["RAG retrieval failed: " ++ e] ∧
     (retrieve_knowledge state (.error e) outcome).errors.length
        = state.errors.length + 1) := by
  refine ⟨⟨rfl, rfl, rfl⟩, rfl, rfl, rfl, ?_⟩
  simp [retrieve_knowledge]

/-! ## Rate limiter claims -/

lemma is_allowed_allow (rl : RateLimiter) (k : String) (now : ℚ)
    (acc : List ℚ) (hacc : rl.requests k = acc)
    (hclean : acc.filter (fun ts => decide (now - rl.window_seconds < ts)) = acc)
    (hroom : acc.length < rl.max_requests) :
    (is_allowed rl k now).1 = true ∧
    (is_allowed rl k now).2.requests k = acc ++ [now] ∧
    (is_allowed rl k now).2.max_requests = rl.max_requests ∧
    (is_allowed rl k now).2.window_seconds = rl.window_seconds ∧
    (∀ k', k' ≠ k → (is_allowed rl k now).2.requests k' = rl.requests k') := by
  simp only [is_allowed, hacc, hclean]
  rw [if_neg (not_le.mpr hroom)]
  exact ⟨rfl, by simp, rfl, rfl, fun k' h => by simp [h]⟩

lemma is_allowed_refuse (rl : RateLimiter) (k : String) (now : ℚ)
    (acc : List ℚ) (hacc : rl.requests k = acc)
    (hclean : acc.filter (fun ts => decide (now - rl.window_seconds < ts)) = acc)
    (hfull : rl.max_requests ≤ acc.length) :
    (is_allowed rl k now).1 = false ∧
    (∀ k', k' ≠ k → (is_allowed rl k now).2.requests k' = rl.requests k') := by
  simp only [is_allowed, hacc, hclean]
  rw [if_pos hfull]
  exact ⟨rfl, fun k' h => by simp [h]⟩

lemma runCalls_all_allowed (k : String) (m : ℕ) (w : ℚ) :
    ∀ (ts acc : List ℚ) (rl : RateLimiter),
      rl.max_requests = m → rl.window_seconds = w → rl.requests k = acc →
      acc.length + ts.length ≤ m →
      (∀ a, (a ∈ acc ∨ a ∈ ts) → ∀ b ∈ ts, b - a < w) →
      (runCalls rl k ts).1 = List.replicate ts.length true ∧
      (runCalls rl k ts).2.max_requests = m ∧
      (runCalls rl k ts).2.window_seconds = w ∧
      (runCalls rl k ts).2.requests k = acc ++ ts ∧
      (∀ k', k' ≠ k → (runCalls rl k ts).2.requests k' = rl.requests k') := by
  intro ts
  induction ts with
  | nil =>
      intro acc rl h1 h2 h3 _ _
      exact ⟨rfl, h1, h2, by simp [runCalls, h3], fun k' _ => rfl⟩
  | cons t ts ih =>
      intro acc rl h1 h2 h3 hlen hwin
      have hclean : acc.filter (fun ts' => decide (t - rl.window_seconds < ts')) = acc := by
        apply List.filter_eq_self.mpr
        intro a ha
        have hw := hwin a (Or.inl ha) t (by simp)
        rw [h2]
        simpa using (by linarith : t - w < a)
      have hroom : acc.length < rl.max_requests := by
        rw [h1]
        simp only [List.length_cons] at hlen
        omega
      obtain ⟨hres, hacc', hmax', hwin', hother⟩ :=
        is_allowed_allow rl k t acc h3 hclean hroom
      have hlen' : (acc ++ [t]).length + ts.length ≤ m := by
        simp only [List.length_append, List.length_singleton]
        simp only [List.length_cons] at hlen
        omega
      have step := ih (acc ++ [t]) (is_allowed rl k t).2
        (by rw [hmax', h1]) (by rw [hwin', h2]) hacc'
        hlen'
        (by
          intro a ha b hb
          rcases ha with ha | ha
          · rcases List.mem_append.mp ha with ha | ha
            · exact hwin a (Or.inl ha) b (List.mem_cons_of_mem t hb)
            · have : a = t := by simpa using ha
              subst this
              exact hwin a (Or.inr (List.mem_cons_self a ts)) b
                (List.mem_cons_of_mem a hb)
          · exact hwin a (Or.inr (List.mem_cons_of_mem t ha)) b
              (List.mem_cons_of_mem t hb))
      refine ⟨?_, step.2.1, step.2.2.1, ?_, ?_⟩
      · simp only [runCalls, hres, step.1, List.length_cons, List.replicate_succ]
      · simp only [runCalls]
        rw [step.2.2.2.1]
        simp
      · intro k' hk'
        simp only [runCalls]
        rw [step.2.2.2.2 k' hk', hother k' hk']

lemma runCalls_append (k : String) :
    ∀ (l1 l2 : List ℚ) (rl : RateLimiter),
      runCalls rl k (l1 ++ l2) =
        ((runCalls rl k l1).1 ++ (runCalls (runCalls rl k l1).2 k l2).1,
         (runCalls (runCalls rl k l1).2 k l2).2) := by
  intro l1
  induction l1 with
  | nil => intro l2 rl; simp [runCalls]
  | cons t l1 ih =>
      intro l2 rl
      simp [runCalls, ih]

/-- C9: starting from a fresh key, `max_requests + 1` calls within a single
sliding window (all pairwise gaps below `window_seconds`) yield exactly
`max_requests` successes followed by one refusal, and the history of any
other key is untouched by the whole sequence. -/
theorem rate_limiter_window (m : ℕ) (w : ℚ) (ts : List ℚ) (k k2 : String)
    (rl : RateLimiter)
    (hmax : rl.max_requests = m) (hwinw : rl.window_seconds = w)
    (hfresh : rl.requests k = [])
    (hlen : ts.length = m + 1)
    (hspread : ∀ a ∈ ts, ∀ b ∈ ts, a - b < w)
    (hk2 : k2 ≠ k) :
    (runCalls rl k ts).1 = List.replicate m true ++ [false] ∧
    (runCalls rl k ts).2.requests k2 = rl.requests k2 := by
  have hne : ts ≠ [] := by
    intro h
    rw [h] at hlen
    simp at hlen
  have hsplit : ts.dropLast ++ [ts.getLast hne] = ts :=
    List.dropLast_append_getLast hne
  have hfrontlen : ts.dropLast.length = m := by
    rw [List.length_dropLast, hlen]
    omega
  have hfrontmem : ∀ x ∈ ts.dropLast, x ∈ ts := by
    intro x hx
    rw [← hsplit]
    exact List.mem_append_left _ hx
  have hlastmem : ts.getLast hne ∈ ts := List.getLast_mem hne
  obtain ⟨hres1, hmax1, hwin1, hreq1, hoth1⟩ :=
    runCalls_all_allowed k m w ts.dropLast [] rl hmax hwinw hfresh
      (by rw [hfrontlen]; simp)
      (by
        intro a ha b hb
        rcases ha with ha | ha
        · cases ha
        · exact hspread b (hfrontmem b hb) a (hfrontmem a ha))
  set s1 := (runCalls rl k ts.dropLast).2 with hs1
  have hclean1 : (ts.dropLast).filter
      (fun x => decide (ts.getLast hne - s1.window_seconds < x)) = ts.dropLast := by
    apply List.filter_eq_self.mpr
    intro a ha
    have hw := hspread (ts.getLast hne) hlastmem a (hfrontmem a ha)
    rw [hwin1]
    simpa using (by linarith : ts.getLast hne - w < a)
  have hfull : s1.max_requests ≤ (ts.dropLast).length := by
    rw [hmax1, hfrontlen]
  obtain ⟨hresf, hothf⟩ :=
    is_allowed_refuse s1 k (ts.getLast hne) ts.dropLast (by rw [hreq1]; simp)
      hclean1 hfull
  have happ := runCalls_append k ts.dropLast [ts.getLast hne] rl
  rw [hsplit] at happ
  constructor
  · rw [happ]
    simp only [← hs1]
    rw [hres1, hfrontlen]
    simp only [runCalls]
    rw [hresf]
  · rw [happ]
    simp only [← hs1]
    have h2 : (runCalls s1 k [ts.getLast hne]).2.requests k2
        = s1.requests k2 := by
      simp only [runCalls]
      exact hothf k2 hk2
    rw [h2]
    exact hoth1 k2 hk2

/-- C9 witness: with `max_requests = 2`, a 60-second window and a fresh
limiter, the calls at times 0, 1, 2 for key "user1" yield true, true, false
and leave "user2"'s history untouched. -/
theorem rate_limiter_window_witness :
    (runCalls ⟨2, 60, fun _ => []⟩ "user1" [0, 1, 2]).1
        = List.replicate 2 true ++ [false] ∧
    (runCalls ⟨2, 60, fun _ => []⟩ "user1" [0, 1, 2]).2.requests "user2"
        = (⟨2, 60, fun _ => []⟩ : RateLimiter).requests "user2" := by
  refine rate_limiter_window 2 60 [0, 1, 2] "user1" "user2" ⟨2, 60, fun _ => []⟩
    rfl rfl rfl rfl ?_ (by decide)
  intro a ha b hb
  fin_cases ha <;> fin_cases hb <;> norm_num

/-! ## Remote store re-seeding claims -/

lemma build_meta_hash (split : Bytes → List Bytes) (cf : Bool)
    (kb : Option (List KBFile)) (s : RemoteStore) :
    (build_supabase_store split cf kb s).2.meta_hash
      = some (compute_kb_hash kb) := by
  simp only [build_supabase_store]
  by_cases h : s.meta_hash = some (compute_kb_hash kb)
  · rw [if_neg (by simp [h])]
    by_cases hc : get_document_count cf s = 0
    · rw [if_pos hc]
      simp [set_meta_hash]
    · rw [if_neg hc]
      exact h
  · rw [if_pos h]
    simp [set_meta_hash]

/-- C6 counterexample: `corpusA` and `corpusB` differ in the bytes of both
source files, yet the concatenated name-and-content stream fed to the hash is
identical (no separator is inserted between names and contents), so a second
initialization against the changed corpus issues no delete-all and no
re-ingest — the action list is empty. -/
theorem store_reseeding_counterexample :
    corpusA ≠ corpusB ∧
    compute_kb_hash (some corpusA) = compute_kb_hash (some corpusB) ∧
    (build_supabase_store sampleSplit false (some corpusB)
      (build_supabase_store sampleSplit false (some corpusA)
        ⟨none, []⟩).2).1 = [] := by
  refine ⟨by decide, by decide, by decide⟩

/-- C6 (amended): (1) a second initialization against an unchanged corpus
issues no action at all — no delete-all, no re-ingest — and leaves the store
state (hence the document count) unchanged, given the first run left at least
one stored row; (2) whenever the freshly computed hash differs from the
stored one, the run issues exactly one delete-all followed by one full
re-ingest and then stores the new hash; (3) changing a single source file's
bytes while keeping the file names always changes the hash stream;
(4) if the stored hash matches but the reported row count is zero,
re-ingestion (with the hash rewritten, without a delete) happens anyway. -/
theorem store_reseeding_policy :
    (∀ (split : Bytes → List Bytes) (kb : Option (List KBFile))
        (s0 : RemoteStore),
      1 ≤ get_document_count false (build_supabase_store split false kb s0).2 →
      (build_supabase_store split false kb
          (build_supabase_store split false kb s0).2).1 = [] ∧
      (build_supabase_store split false kb
          (build_supabase_store split false kb s0).2).2
        = (build_supabase_store split false kb s0).2) ∧
    (∀ (split : Bytes → List Bytes) (cf : Bool) (kb : Option (List KBFile))
        (s : RemoteStore),
      s.meta_hash ≠ some (compute_kb_hash kb) →
      (build_supabase_store split cf kb s).1
        = [.deleteAll, .seed, .setHash (compute_kb_hash kb)] ∧
      (build_supabase_store split cf kb s).2.meta_hash
        = some (compute_kb_hash kb)) ∧
    (∀ (pre post : List KBFile) (f1 f2 : KBFile),
      f1.name = f2.name → f1.content ≠ f2.content →
      compute_kb_hash (some (pre ++ f1 :: post))
        ≠ compute_kb_hash (some (pre ++ f2 :: post))) ∧
    (∀ (split : Bytes → List Bytes) (cf : Bool) (kb : Option (List KBFile))
        (s : RemoteStore),
      s.meta_hash = some (compute_kb_hash kb) →
      get_document_count cf s = 0 →
      (build_supabase_store split cf kb s).1
        = [.seed, .setHash (compute_kb_hash kb)]) := by
  refine ⟨?_, ?_, ?_, ?_⟩
  · intro split kb s0 h1
    set s1 := (build_supabase_store split false kb s0).2 with hs1
    have hm : s1.meta_hash = some (compute_kb_hash kb) :=
      build_meta_hash split false kb s0
    have hne : ¬ s1.meta_hash ≠ some (compute_kb_hash kb) := by simp [hm]
    have hcnt : get_document_count false s1 ≠ 0 := by omega
    constructor
    · simp only [build_supabase_store]
      rw [if_neg hne, if_neg hcnt]
    · simp only [build_supabase_store]
      rw [if_neg hne, if_neg hcnt]
  · intro split cf kb s h
    constructor
    · simp only [build_supabase_store]
      rw [if_pos h]
    · exact build_meta_hash split cf kb s
  · intro pre post f1 f2 hn hc heq
    apply hc
    simp only [compute_kb_hash, KBHash.digest.injEq] at heq
    rw [List.map_append, List.map_cons, List.flatten_append,
      List.flatten_cons, List.map_append, List.map_cons,
      List.flatten_append, List.flatten_cons] at heq
    have h1 := List.append_cancel_left heq
    rw [hn, List.append_assoc, List.append_assoc] at h1
    have h2 := List.append_cancel_left h1
    exact List.append_cancel_right h2
  · intro split cf kb s hmeta hcount
    simp only [build_supabase_store]
    rw [if_neg (by simp [hmeta]), if_pos hcount]

/-- C6 witness: seeding an empty remote store from a concrete corpus and then
re-initializing against the unchanged corpus issues no action. -/
theorem store_reseeding_policy_witness :
    1 ≤ get_document_count false
        (build_supabase_store sampleSplit false (some corpusA) ⟨none, []⟩).2 ∧
    (build_supabase_store sampleSplit false (some corpusA)
        (build_supabase_store sampleSplit false (some corpusA)
          ⟨none, []⟩).2).1 = [] := by
  have h : 1 ≤ get_document_count false
      (build_supabase_store sampleSplit false (some corpusA) ⟨none, []⟩).2 := by
    decide
  exact ⟨h, (store_reseeding_policy.1 sampleSplit (some corpusA) ⟨none, []⟩ h).1⟩

end PJAssistant
